import Mathlib

/-!
Shallow embedding of `simple_debugger.py`, a minimal terminal debugger built
on the CPython `bdb` tracing machinery.

The embedding covers:
* the Snapshot Builder (`_safe_repr_dict`, `_get_stack_info`, `_update_ui`);
* the `bdb` stepping state the debugger drives (`stop_here`, `set_step`,
  `set_next`, `set_continue`, `set_quit`, transcribed from the CPython 3.11
  standard-library `bdb.py` that this program imports), specialised to this
  program, which never sets any breakpoint (`self.breaks` stays empty) and
  debugs plain functions (no generators or coroutines);
* the pause protocol (`user_line` / `user_exception` / `_wait_for_command`);
* a driver `run` folding the trace events of a target execution through the
  dispatch logic, and `runScript` wrapping it the way `run_script` does
  (synthetic snapshot for an escaping exception, silent `BdbQuit`);
* the CLI entry point `main`.

Python frames are abstracted by their chain of frame data (innermost first);
the `f_back` relation is the tail of that chain, and `bdb`'s `frame is
self.stopframe` identity test is abstracted by call depth, which is adequate
for the trace-reachable states of this program.  A Python value is abstracted
by the outcome of calling `repr` on it, the only operation the snapshot
builder performs on values.
-/

namespace SimpleDebugger

/-- A Python value, abstracted by the outcome of calling `repr` on it:
either `repr` returns a string, or it raises. -/
inductive PyValue where
  | reprOk (s : String)
  | reprRaises
deriving DecidableEq

/-- The data of one Python frame that the debugger reads: `f_code.co_filename`,
`f_lineno`, `f_code.co_name` and `f_locals` (an insertion-ordered mapping). -/
structure FrameData where
  filename : String
  lineno : Nat
  function : String
  locals : List (String × PyValue)
deriving DecidableEq

/-- A paused frame: its own data plus the chain of its ancestors through
`f_back` (caller first), ending at the target's module frame. -/
structure Frame where
  top : FrameData
  rest : List FrameData
deriving DecidableEq

/-- Call depth of a frame: the module frame has depth 0. -/
def frameDepth (f : Frame) : Nat := f.rest.length

/-- Python string slicing `s[:n]` (by code point, as Python slices). -/
def pyTake (s : String) (n : Nat) : String := ⟨s.data.take n⟩

/-- Python `s.startswith(pre)`, on code points. -/
def startswith (s pre : String) : Bool := pre.data.isPrefixOf s.data

/-- The body of the `try`/`except` in `_safe_repr_dict`:
`repr(v)[:100]`, or `'<error getting repr>'` when `repr` raises. -/
def renderValue (v : PyValue) : String :=
  match v with
  | .reprOk s => pyTake s 100
  | .reprRaises => "<error getting repr>"

/-- Model of `DebuggerCore._safe_repr_dict`: skip names starting with `'__'`,
convert every other value with `repr(v)[:100]`, substituting
`'<error getting repr>'` when `repr` raises.  Total by construction:
the `except` branch is the second case of `renderValue`. -/
def safe_repr_dict : List (String × PyValue) → List (String × String)
  | [] => []
  | (k, v) :: rest =>
      if startswith k "__" then safe_repr_dict rest
      else (k, renderValue v) :: safe_repr_dict rest

/-- The characters after the last `'/'` of a path (accumulator = current
component). -/
def pathNameAux (acc : List Char) : List Char → List Char
  | [] => acc
  | c :: cs => if c = '/' then pathNameAux [] cs else pathNameAux (acc ++ [c]) cs

/-- Model of `Path(filename).name` for a POSIX path without a trailing slash: the
component after the last `'/'`. -/
def pathName (p : String) : String := ⟨pathNameAux [] p.data⟩

/-- One entry of the `stack` list built by `_get_stack_info`. -/
structure StackEntry where
  filename : String
  lineno : Nat
  function : String
deriving DecidableEq

/-- The dict appended for one frame in `_get_stack_info`'s loop. -/
def frameEntry (f : FrameData) : StackEntry :=
  { filename := pathName f.filename, lineno := f.lineno, function := f.function }

/-- The `while f is not None` walk of `_get_stack_info`: one entry per frame
of the chain, innermost first. -/
def stack_walk : List FrameData → List StackEntry
  | [] => []
  | f :: back => frameEntry f :: stack_walk back

/-- Model of `DebuggerCore._get_stack_info`: walk the whole `f_back` chain, then
truncate to the first 10 entries (`stack[:10]`). -/
def get_stack_info (f : Frame) : List StackEntry :=
  (stack_walk (f.top :: f.rest)).take 10

/-- A value stored in the state dict sent over `ui_queue`. -/
inductive StateVal where
  | str (s : String)
  | num (n : Nat)
  | strDict (d : List (String × String))
  | entryList (l : List StackEntry)
  | pyNone
deriving DecidableEq

/-- The state dict put on `ui_queue`, as the literal key/value list. -/
abbrev UIState := List (String × StateVal)

/-- Model of `DebuggerCore._update_ui`: the state dict built from a frame, with the
optional exception text (`str(exception[1])`). -/
def update_ui (f : Frame) (exception : Option String) : UIState :=
  [ ("filename", .str f.top.filename),
    ("lineno", .num f.top.lineno),
    ("function", .str f.top.function),
    ("locals", .strDict (safe_repr_dict f.top.locals)),
    ("stack", .entryList (get_stack_info f)),
    ("exception", match exception with | some e => .str e | none => .pyNone) ]

/-- The dict `run_script` puts on `ui_queue` when an exception `e` escapes
`debugger.run` (including compile failures): location fields are populated
with sentinels, locals and stack are empty, exception is `str(e)`. -/
def syntheticState (scriptPath msg : String) : UIState :=
  [ ("filename", .str scriptPath),
    ("lineno", .num 0),
    ("function", .str "<module>"),
    ("locals", .strDict []),
    ("stack", .entryList []),
    ("exception", .str msg) ]

/-- The `bdb.Bdb` stepping state this program manipulates, with frames
abstracted by call depth (`stopframe`/`returnframe` are `none` when the
Python attribute is `None`).  `traceOn` records whether the system trace
function is installed (`set_continue` with no breakpoints removes it). -/
structure BdbState where
  stopDepth : Option Nat
  returnframe : Option Nat
  stoplineno : Int
  quitting : Bool
  traceOn : Bool
deriving DecidableEq

/-- Model of `Bdb._set_stopinfo` (it also clears `quitting`). -/
def set_stopinfo (s : BdbState) (stopDepth returnframe : Option Nat)
    (stoplineno : Int) : BdbState :=
  { s with stopDepth, returnframe, stoplineno, quitting := false }

/-- Model of `Bdb.set_step`: `_set_stopinfo(None, None)`. -/
def set_step (s : BdbState) : BdbState := set_stopinfo s none none 0

/-- Model of `Bdb.set_next(frame)`: `_set_stopinfo(frame, None)`, the frame given by
its depth. -/
def set_next (s : BdbState) (d : Nat) : BdbState := set_stopinfo s (some d) none 0

/-- Model of `Bdb.set_continue`: `_set_stopinfo(self.botframe, None, -1)`; this program
sets no breakpoints, so `sys.settrace(None)` is also executed and tracing
stops.  `botframe` is the debugger's own frame below the target; its depth is
written 0 here, which is immaterial because `stoplineno = -1` makes
`stop_here` false at every frame. -/
def set_continue (s : BdbState) : BdbState :=
  { set_stopinfo s (some 0) none (-1) with traceOn := false }

/-- Model of `Bdb.set_quit`: point `stopframe` at `botframe` and set `quitting`;
the next dispatch raises `BdbQuit`. -/
def set_quit (s : BdbState) : BdbState :=
  { s with stopDepth := some 0, returnframe := none, quitting := true }

/-- The initial state after `Bdb.run` calls `reset()` (which does
`_set_stopinfo(None, None)`, i.e. single-step mode) and installs the trace
function. -/
def initBdb : BdbState :=
  { stopDepth := none, returnframe := none, stoplineno := 0,
    quitting := false, traceOn := true }

/-- Model of `Bdb.stop_here(frame)` for this program (no skip patterns): true at the
stop frame when `stoplineno` is not `-1` and the line is `≥ stoplineno`;
true everywhere when `stopframe` is `None`; false otherwise. -/
def stop_here (s : BdbState) (d : Nat) (lineno : Nat) : Bool :=
  match s.stopDepth with
  | some sd =>
      if d = sd then
        if s.stoplineno = -1 then false else decide ((lineno : Int) ≥ s.stoplineno)
      else false
  | none => true

/-- Model of `DebuggerCore._wait_for_command`, applied to the one command taken from
`cmd_queue`: translate a recognized command into its resume directive; an
unrecognized value falls through every branch and changes nothing. -/
def wait_for_command (s : BdbState) (frameDep : Nat) (cmd : String) : BdbState :=
  if cmd = "step" then set_step s
  else if cmd = "next" then set_next s frameDep
  else if cmd = "continue" then set_continue s
  else if cmd = "quit" then set_quit s
  else s

/-- One observable interaction with the two queues. -/
inductive Action where
  | putSnap (st : UIState)
  | getCmd (c : String)
deriving DecidableEq

/-- The body shared by `user_line` and `user_exception`: put one state dict
on `ui_queue` (`_update_ui`), then block for exactly one command from
`cmd_queue` and apply it (`_wait_for_command`). -/
def pause (s : BdbState) (f : Frame) (exc : Option String) (cmd : String) :
    List Action × BdbState :=
  ([.putSnap (update_ui f exc), .getCmd cmd], wait_for_command s (frameDepth f) cmd)

/-- Model of `DebuggerCore.user_line`. -/
def user_line (s : BdbState) (f : Frame) (cmd : String) : List Action × BdbState :=
  pause s f none cmd

/-- Model of `DebuggerCore.user_exception` (`msg` is `str(exc_info[1])`). -/
def user_exception (s : BdbState) (f : Frame) (msg : String) (cmd : String) :
    List Action × BdbState :=
  pause s f (some msg) cmd

/-- A trace event delivered to `Bdb.trace_dispatch` while the target runs:
a line about to execute, an exception propagating through a frame, or a
frame returning.  (`call` events are omitted: `user_call` is not overridden,
so they are unobservable.) -/
inductive Event where
  | line (f : Frame)
  | exc (f : Frame) (msg : String)
  | ret (f : Frame)
deriving DecidableEq

/-- The frame depth of an event. -/
def eventDepth : Event → Nat
  | .line f => frameDepth f
  | .exc f _ => frameDepth f
  | .ret f => frameDepth f

/-- How a traced run ends. -/
inductive RunStatus where
  | finished
  | quitRaised
deriving DecidableEq

/-- Result of folding the trace events through the dispatch logic. -/
structure RunResult where
  actions : List Action
  state : BdbState
  nextCmd : Nat
  status : RunStatus
deriving DecidableEq

/-- The dispatch loop: fold the target's trace events through `bdb`'s
`dispatch_line` / `dispatch_exception` / `dispatch_return`, answering each
pause with the next command of the stream `cmds`.  `break_here` is always
false (no breakpoints), so a line pauses iff `stop_here`; after `user_line`
or `user_exception`, `quitting` raises `BdbQuit` and the run aborts; a
return event resets the stop info to single-step when the step-over frame
returns.  When the trace function has been removed, events pass silently. -/
def run (s : BdbState) : List Event → (Nat → String) → Nat → RunResult
  | [], _, n => ⟨[], s, n, .finished⟩
  | .line f :: rest, cmds, n =>
      if s.traceOn && stop_here s (frameDepth f) f.top.lineno then
        let p := user_line s f (cmds n)
        if p.2.quitting then ⟨p.1, p.2, n + 1, .quitRaised⟩
        else
          let r := run p.2 rest cmds (n + 1)
          ⟨p.1 ++ r.actions, r.state, r.nextCmd, r.status⟩
      else run s rest cmds n
  | .exc f msg :: rest, cmds, n =>
      if s.traceOn && stop_here s (frameDepth f) f.top.lineno then
        let p := user_exception s f msg (cmds n)
        if p.2.quitting then ⟨p.1, p.2, n + 1, .quitRaised⟩
        else
          let r := run p.2 rest cmds (n + 1)
          ⟨p.1 ++ r.actions, r.state, r.nextCmd, r.status⟩
      else run s rest cmds n
  | .ret f :: rest, cmds, n =>
      if s.traceOn &&
          (stop_here s (frameDepth f) f.top.lineno
            || s.returnframe == some (frameDepth f)) then
        let s' :=
          if s.stopDepth == some (frameDepth f) && s.stoplineno != -1 then
            set_stopinfo s none none 0
          else s
        run s' rest cmds n
      else run s rest cmds n

/-- How the target's top-level execution ends when no `BdbQuit` aborts it. -/
inductive Ending where
  | normal
  | unhandled (msg : String)
deriving DecidableEq

/-- One execution of the target under the debugger: the script path, the
trace events the runtime delivers, and how top-level execution ends. -/
structure TargetRun where
  scriptPath : String
  events : List Event
  ending : Ending

/-- The control states of §4.4. -/
inductive ExecStatus where
  | paused
  | terminated
deriving DecidableEq

/-- The state dicts among a list of queue actions, in order. -/
def snapshotsOf (l : List Action) : List UIState :=
  l.filterMap fun a => match a with | .putSnap st => some st | .getCmd _ => none

/-- Number of `ui_queue.put` actions in a trace. -/
def putCount (l : List Action) : Nat :=
  l.countP fun a => match a with | .putSnap _ => true | .getCmd _ => false

/-- Number of `cmd_queue.get` actions in a trace. -/
def getCount (l : List Action) : Nat :=
  l.countP fun a => match a with | .putSnap _ => false | .getCmd _ => true

/-- What `run_script` delivers on `ui_queue` overall, and the final control
state of the execution context. -/
structure ScriptResult where
  puts : List UIState
  status : ExecStatus
deriving DecidableEq

/-- The `run_script` closure of `run_debugger`: run the target under the
dispatch loop; a `BdbQuit` abort is swallowed silently (`except bdb.BdbQuit:
pass`, and `Bdb.run` itself also swallows it); any other escaping exception
is turned into one synthetic state dict (`except Exception as e`); in every
case the thread then ends, so the execution context is terminated. -/
def runScript (tr : TargetRun) (cmds : Nat → String) : ScriptResult :=
  let r := run initBdb tr.events cmds 0
  match r.status with
  | .quitRaised => { puts := snapshotsOf r.actions, status := .terminated }
  | .finished =>
      match tr.ending with
      | .normal => { puts := snapshotsOf r.actions, status := .terminated }
      | .unhandled msg =>
          { puts := snapshotsOf r.actions ++ [syntheticState tr.scriptPath msg],
            status := .terminated }

/-- The lines printed by `main`'s usage branch. -/
def usageLines : List String :=
  [ "Usage: python simple_debugger.py <script.py>",
    "\nControls:",
    "  s - Step into",
    "  n - Step over (next)",
    "  c - Continue",
    "  q - Quit" ]

/-- Outcome of the `main` entry point: exit with a status code after
printing some lines, or hand the script path to `run_debugger`. -/
inductive MainResult where
  | exited (code : Nat) (output : List String)
  | ran (scriptPath : String)
deriving DecidableEq

/-- Model of `main`: usage message and `sys.exit(1)` without a second argv entry;
error message and `sys.exit(1)` when the path does not exist; otherwise
`run_debugger(script_path)`. -/
def main (argv : List String) (pathExists : String → Bool) : MainResult :=
  match argv with
  | _ :: scriptPath :: _ =>
      if pathExists scriptPath then .ran scriptPath
      else .exited 1 ["Error: " ++ scriptPath ++ " not found"]
  | _ => .exited 1 usageLines

/-! Helper lemmas about the snapshot builder. -/

/-- Every rendered value is at most 100 characters long. -/
lemma renderValue_length_le (v : PyValue) : (renderValue v).length ≤ 100 := by
  cases v with
  | reprOk s => exact List.length_take_le 100 s.data
  | reprRaises => decide

/-- Keeping a non-reserved binding: it appears in the converted dict. -/
lemma mem_safe_repr_dict_of_mem {d : List (String × PyValue)} {k : String}
    {v : PyValue} (hmem : (k, v) ∈ d) (hres : startswith k "__" = false) :
    (k, renderValue v) ∈ safe_repr_dict d := by
  induction d with
  | nil => cases hmem
  | cons kv rest ih =>
      obtain ⟨k₀, v₀⟩ := kv
      rcases List.mem_cons.mp hmem with heq | htail
      · obtain ⟨hk, hv⟩ := Prod.mk.injEq .. ▸ heq
        subst hk; subst hv
        simp [safe_repr_dict, hres]
      · by_cases h₀ : startswith k₀ "__" = true
        · simpa [safe_repr_dict, h₀] using ih htail
        · simp only [Bool.not_eq_true] at h₀
          simp [safe_repr_dict, h₀, ih htail]

/-- Every entry of the converted dict comes from a non-reserved binding. -/
lemma of_mem_safe_repr_dict {d : List (String × PyValue)} {p : String × String}
    (hmem : p ∈ safe_repr_dict d) :
    startswith p.1 "__" = false ∧ ∃ v, (p.1, v) ∈ d ∧ p.2 = renderValue v := by
  induction d with
  | nil => cases hmem
  | cons kv rest ih =>
      obtain ⟨k₀, v₀⟩ := kv
      by_cases h₀ : startswith k₀ "__" = true
      · simp only [safe_repr_dict, h₀, if_true] at hmem
        obtain ⟨hr, v, hv, he⟩ := ih hmem
        exact ⟨hr, v, List.mem_cons_of_mem _ hv, he⟩
      · simp only [Bool.not_eq_true] at h₀
        simp only [safe_repr_dict, h₀, Bool.false_eq_true, if_false] at hmem
        rcases List.mem_cons.mp hmem with heq | htail
        · subst heq
          exact ⟨h₀, v₀, List.mem_cons_self .., rfl⟩
        · obtain ⟨hr, v, hv, he⟩ := ih htail
          exact ⟨hr, v, List.mem_cons_of_mem _ hv, he⟩

/-- The keys of the converted dict are exactly the non-reserved keys, in
their original order. -/
lemma safe_repr_dict_keys (d : List (String × PyValue)) :
    (safe_repr_dict d).map Prod.fst
      = (d.map Prod.fst).filter (fun k => !(startswith k "__")) := by
  induction d with
  | nil => rfl
  | cons kv rest ih =>
      obtain ⟨k₀, v₀⟩ := kv
      by_cases h₀ : startswith k₀ "__" = true
      · simp [safe_repr_dict, h₀, ih, List.filter_cons]
      · simp only [Bool.not_eq_true] at h₀
        simp [safe_repr_dict, h₀, ih, List.filter_cons]

/-- The stack walk records one entry per frame of the chain. -/
lemma stack_walk_eq_map (l : List FrameData) : stack_walk l = l.map frameEntry := by
  induction l with
  | nil => rfl
  | cons f back ih => simp [stack_walk, ih]

/-- C4: a bound local whose `repr` raises is rendered as the fixed
placeholder `'<error getting repr>'`, every other non-reserved binding is
still converted (the snapshot is complete), and `safe_repr_dict` is a total
function, so no failure propagates out of snapshot construction. -/
theorem safe_repr_failure_placeholder (d : List (String × PyValue)) (k : String)
    (hmem : (k, PyValue.reprRaises) ∈ d) (hres : startswith k "__" = false) :
    (k, "<error getting repr>") ∈ safe_repr_dict d ∧
    ∀ k' v', (k', v') ∈ d → startswith k' "__" = false →
      (k', renderValue v') ∈ safe_repr_dict d :=
  ⟨mem_safe_repr_dict_of_mem hmem hres,
   fun _ _ hmem' hres' => mem_safe_repr_dict_of_mem hmem' hres'⟩

/-- Witness for C4 at a concrete locals dict. -/
theorem safe_repr_failure_placeholder_witness :
    (("boom", PyValue.reprRaises) ∈
        [("x", PyValue.reprOk "1"), ("boom", PyValue.reprRaises)]) ∧
    startswith "boom" "__" = false ∧
    ("boom", "<error getting repr>") ∈
      safe_repr_dict [("x", PyValue.reprOk "1"), ("boom", PyValue.reprRaises)] :=
  ⟨by decide, by decide,
   (safe_repr_failure_placeholder
     [("x", PyValue.reprOk "1"), ("boom", PyValue.reprRaises)] "boom"
     (by decide) (by decide)).1⟩

/-- C5: the converted locals mapping contains no name starting with a double
underscore, every retained value string has at most 100 characters, and the
retained names keep the original insertion order (they are exactly the
non-reserved keys, filtered in place). -/
theorem safe_repr_no_reserved_truncated_ordered (d : List (String × PyValue)) :
    (∀ p ∈ safe_repr_dict d, startswith p.1 "__" = false ∧ p.2.length ≤ 100) ∧
    (safe_repr_dict d).map Prod.fst
      = (d.map Prod.fst).filter (fun k => !(startswith k "__")) := by
  refine ⟨fun p hp => ?_, safe_repr_dict_keys d⟩
  obtain ⟨hr, v, _, he⟩ := of_mem_safe_repr_dict hp
  exact ⟨hr, he ▸ renderValue_length_le v⟩

/-- Witness for C5 at a concrete locals dict. -/
theorem safe_repr_no_reserved_truncated_ordered_witness :
    (("x", "1") ∈ safe_repr_dict
        [("x", PyValue.reprOk "1"), ("__doc__", PyValue.reprOk "d")]) ∧
    startswith "x" "__" = false ∧ ("1" : String).length ≤ 100 ∧
    (safe_repr_dict [("x", PyValue.reprOk "1"), ("__doc__", PyValue.reprOk "d")]).map
        Prod.fst = ["x"] :=
  ⟨by decide,
   ((safe_repr_no_reserved_truncated_ordered
       [("x", PyValue.reprOk "1"), ("__doc__", PyValue.reprOk "d")]).1
     ("x", "1") (by decide)).1,
   ((safe_repr_no_reserved_truncated_ordered
       [("x", PyValue.reprOk "1"), ("__doc__", PyValue.reprOk "d")]).1
     ("x", "1") (by decide)).2,
   by decide⟩

/-- C6: the snapshot's stack has at most 10 entries, entry 0 is the innermost
(current) frame, each entry records file basename, line and function of its
frame, and the result is the full parent-chain walk cut at the root or at the
depth limit, whichever comes first. -/
theorem stack_info_bounded_innermost_first (f : Frame) :
    (get_stack_info f).length ≤ 10 ∧
    (get_stack_info f).head? = some (frameEntry f.top) ∧
    get_stack_info f = ((f.top :: f.rest).map frameEntry).take 10 ∧
    (get_stack_info f).length = min 10 (f.rest.length + 1) := by
  have hwalk : get_stack_info f = ((f.top :: f.rest).map frameEntry).take 10 := by
    simp [get_stack_info, stack_walk_eq_map]
  refine ⟨?_, ?_, hwalk, ?_⟩
  · exact List.length_take_le 10 (stack_walk (f.top :: f.rest))
  · rw [hwalk]
    simp
  · rw [hwalk]
    simp only [List.length_take, List.length_map, List.length_cons]

/-! Helper lemmas about the dispatch loop. -/

/-- A queue-action trace made of pause blocks: one snapshot put immediately
followed by one blocking command get, repeated. -/
inductive Paired : List Action → Prop where
  | nil : Paired []
  | pair (st : UIState) (c : String) {l : List Action} :
      Paired l → Paired (.putSnap st :: .getCmd c :: l)

/-- In a paired trace, puts and gets are in bijection. -/
lemma Paired.count_eq {l : List Action} (h : Paired l) :
    putCount l = getCount l := by
  induction h with
  | nil => rfl
  | pair st c _ ih =>
      simp [putCount, getCount, List.countP_cons] at ih ⊢
      omega

/-- Every trace the dispatch loop produces is a sequence of pause blocks. -/
lemma run_paired (events : List Event) :
    ∀ (s : BdbState) (cmds : Nat → String) (n : Nat),
      Paired (run s events cmds n).actions := by
  induction events with
  | nil => intro s cmds n; exact Paired.nil
  | cons e rest ih =>
      intro s cmds n
      cases e with
      | line f =>
          simp only [run, user_line, pause]
          split
          · split
            · exact Paired.pair _ _ Paired.nil
            · exact Paired.pair _ _ (ih _ _ _)
          · exact ih _ _ _
      | exc f msg =>
          simp only [run, user_exception, pause]
          split
          · split
            · exact Paired.pair _ _ Paired.nil
            · exact Paired.pair _ _ (ih _ _ _)
          · exact ih _ _ _
      | ret f =>
          simp only [run]
          split
          · exact ih _ _ _
          · exact ih _ _ _

/-- With the trace function removed, no dispatch happens: the rest of the
execution produces no queue interaction and changes no debugger state. -/
lemma run_traceOff (events : List Event) :
    ∀ (s : BdbState) (cmds : Nat → String) (n : Nat), s.traceOn = false →
      run s events cmds n = ⟨[], s, n, .finished⟩ := by
  induction events with
  | nil => intro s cmds n _; rfl
  | cons e rest ih =>
      intro s cmds n h
      cases e with
      | line f => simp only [run, h, Bool.false_and, Bool.false_eq_true,
          if_false]; exact ih s cmds n h
      | exc f msg => simp only [run, h, Bool.false_and, Bool.false_eq_true,
          if_false]; exact ih s cmds n h
      | ret f => simp only [run, h, Bool.false_and, Bool.false_eq_true,
          if_false]; exact ih s cmds n h

/-- While the stop frame of a step-over sits at depth `D` and every event is
strictly deeper, the dispatch loop pauses nowhere and changes nothing. -/
lemma run_no_stop_deeper (D : Nat) (events : List Event) :
    ∀ (s : BdbState) (cmds : Nat → String) (n : Nat),
      s.stopDepth = some D → s.returnframe = none →
      (∀ e ∈ events, D < eventDepth e) →
      run s events cmds n = ⟨[], s, n, .finished⟩ := by
  induction events with
  | nil => intro s cmds n _ _ _; rfl
  | cons e rest ih =>
      intro s cmds n hsd hrf hdeep
      have hd := hdeep e (List.mem_cons_self ..)
      have hrest : ∀ e' ∈ rest, D < eventDepth e' :=
        fun e' he' => hdeep e' (List.mem_cons_of_mem _ he')
      cases e with
      | line f =>
          simp only [eventDepth] at hd
          have hstop : stop_here s (frameDepth f) f.top.lineno = false := by
            simp [stop_here, hsd, Nat.ne_of_gt hd]
          simp only [run, hstop, Bool.and_false, Bool.false_eq_true, if_false]
          exact ih s cmds n hsd hrf hrest
      | exc f msg =>
          simp only [eventDepth] at hd
          have hstop : stop_here s (frameDepth f) f.top.lineno = false := by
            simp [stop_here, hsd, Nat.ne_of_gt hd]
          simp only [run, hstop, Bool.and_false, Bool.false_eq_true, if_false]
          exact ih s cmds n hsd hrf hrest
      | ret f =>
          simp only [eventDepth] at hd
          have hstop : stop_here s (frameDepth f) f.top.lineno = false := by
            simp [stop_here, hsd, Nat.ne_of_gt hd]
          have hret : (s.returnframe == some (frameDepth f)) = false := by
            rw [hrf]; rfl
          have hnores : (s.stopDepth == some (frameDepth f)) = false := by
            rw [hsd]; simp; omega
          simp only [run, hstop, hret, Bool.or_self, Bool.and_false,
            Bool.false_eq_true, if_false]
          exact ih s cmds n hsd hrf hrest

/-- Concrete module-level frame used by witnesses. -/
def frameMod : Frame := ⟨⟨"/tmp/t.py", 1, "<module>", [("x", .reprOk "1")]⟩, []⟩

/-- Concrete depth-1 frame (inside a callee) used by witnesses. -/
def frameG : Frame :=
  ⟨⟨"/tmp/t.py", 5, "g", [("name", .reprOk "Alice")]⟩, [frameMod.top]⟩

/-- C1: every pause (a `user_line` or `user_exception` callback) puts exactly
one snapshot on `ui_queue` and then takes exactly one command from
`cmd_queue` before execution resumes — the whole queue trace of any run is a
sequence of such snapshot/command blocks, so the number of snapshots put
equals the number of commands consumed. -/
theorem pause_snapshot_command_one_to_one (s : BdbState) (events : List Event)
    (cmds : Nat → String) (n : Nat) :
    Paired (run s events cmds n).actions ∧
    putCount (run s events cmds n).actions
      = getCount (run s events cmds n).actions :=
  ⟨run_paired events s cmds n, (run_paired events s cmds n).count_eq⟩

/-- C2: once `'next'` (step-over) is taken at a frame of depth `D`, no
snapshot is produced while every subsequent event is at depth greater than
`D` — i.e. until control is back at depth at most `D`, no pause happens in
the freshly entered callees. -/
theorem step_over_suppresses_deeper_pauses (s : BdbState) (D : Nat)
    (events : List Event) (cmds : Nat → String) (n : Nat)
    (hdeep : ∀ e ∈ events, D < eventDepth e) :
    (run (wait_for_command s D "next") events cmds n).actions = [] := by
  have hw : wait_for_command s D "next" = set_next s D := rfl
  rw [run_no_stop_deeper D events (wait_for_command s D "next") cmds n
    (by rw [hw]; rfl) (by rw [hw]; rfl) hdeep]

/-- Witness for C2: a step-over at the module frame (depth 0), followed by a
line event inside a callee at depth 1, produces no snapshot. -/
theorem step_over_suppresses_deeper_pauses_witness :
    (∀ e ∈ ([.line frameG] : List Event), 0 < eventDepth e) ∧
    (run (wait_for_command initBdb 0 "next") [.line frameG]
      (fun _ => "step") 0).actions = [] :=
  ⟨by decide,
   step_over_suppresses_deeper_pauses initBdb 0 [.line frameG]
     (fun _ => "step") 0 (by decide)⟩

/-- Concrete event list for the C3 counterexample: a line pause at the module
frame (where `'continue'` is answered), then an exception event inside a
callee that the target itself handles, then another line event. -/
def continueEvents : List Event :=
  [.line frameMod, .exc frameG "oops", .line frameMod]

/-- Counterexample to C3 as stated: after `'continue'` is taken at the first
pause, an exception is raised in the target (the `.exc` event of
`continueEvents`), yet no second snapshot is ever emitted — `set_continue`
removes the trace function (this debugger sets no breakpoints), so the
debugger does not break at the next exception; only the initial line pause's
snapshot exists. -/
theorem continue_exception_counterexample :
    ¬ (2 ≤ putCount (run initBdb continueEvents (fun _ => "continue") 0).actions) ∧
    putCount (run initBdb continueEvents (fun _ => "continue") 0).actions = 1 := by
  constructor
  · decide
  · decide

/-- C3 amended: after `'continue'` is taken at a pause, no further pause of
any kind occurs — neither line events nor exception events produce a
snapshot or consume a command before the target terminates (an exception
escaping the top level is reported only through the synthetic terminal
snapshot of `run_script`, without a pause). -/
theorem continue_suppresses_all_pauses (s : BdbState) (d : Nat)
    (events : List Event) (cmds : Nat → String) (n : Nat) :
    run (wait_for_command s d "continue") events cmds n
      = ⟨[], wait_for_command s d "continue", n, .finished⟩ :=
  run_traceOff events (wait_for_command s d "continue") cmds n rfl

/-- Counterexample to C7 as stated: the final synthetic snapshot does carry a
location — `run_script` fills the `'filename'` and `'lineno'` keys with the
sentinel values (target path, line 0), so the location is not absent. The
other conjuncts of the claim (exception text, empty locals, empty stack) do
hold and are restated by the amended theorem. -/
theorem synthetic_snapshot_location_counterexample :
    (syntheticState "test_script.py" "boom").lookup "filename"
        = some (StateVal.str "test_script.py") ∧
    (syntheticState "test_script.py" "boom").lookup "lineno"
        = some (StateVal.num 0) ∧
    ¬ ((syntheticState "test_script.py" "boom").lookup "filename" = none ∨
       (syntheticState "test_script.py" "boom").lookup "filename"
         = some StateVal.pyNone) := by
  refine ⟨rfl, rfl, ?_⟩
  decide

/-- C7 amended: when an exception with message `msg` escapes the top-level
frame (and the run was not aborted by `Quit`), exactly one final synthetic
snapshot is appended after the pause snapshots; its exception field is
`msg`, its locals mapping and stack sequence are empty, and its location
fields hold the sentinels (target path, line number 0, function
`'<module>'`) rather than being absent; the execution context then
terminates. -/
theorem unhandled_exception_synthetic_snapshot (tr : TargetRun)
    (cmds : Nat → String) (msg : String)
    (hend : tr.ending = .unhandled msg)
    (hfin : (run initBdb tr.events cmds 0).status = .finished) :
    (runScript tr cmds).puts
      = snapshotsOf (run initBdb tr.events cmds 0).actions
        ++ [syntheticState tr.scriptPath msg] ∧
    (runScript tr cmds).status = .terminated ∧
    (syntheticState tr.scriptPath msg).lookup "exception"
        = some (StateVal.str msg) ∧
    (syntheticState tr.scriptPath msg).lookup "locals"
        = some (StateVal.strDict []) ∧
    (syntheticState tr.scriptPath msg).lookup "stack"
        = some (StateVal.entryList []) ∧
    (syntheticState tr.scriptPath msg).lookup "filename"
        = some (StateVal.str tr.scriptPath) ∧
    (syntheticState tr.scriptPath msg).lookup "lineno"
        = some (StateVal.num 0) := by
  refine ⟨?_, ?_, rfl, rfl, rfl, rfl, rfl⟩
  · simp [runScript, hfin, hend]
  · simp [runScript, hfin, hend]

/-- Witness for C7 (amended): a target whose compilation/top level raises
`"boom"` before any traced event delivers exactly the synthetic snapshot. -/
theorem unhandled_exception_synthetic_snapshot_witness :
    ((⟨"test_script.py", [], .unhandled "boom"⟩ : TargetRun).ending
        = .unhandled "boom") ∧
    (run initBdb ([] : List Event) (fun _ => "step") 0).status = .finished ∧
    (runScript ⟨"test_script.py", [], .unhandled "boom"⟩ (fun _ => "step")).puts
      = snapshotsOf (run initBdb ([] : List Event) (fun _ => "step") 0).actions
        ++ [syntheticState "test_script.py" "boom"] :=
  ⟨rfl, rfl,
   (unhandled_exception_synthetic_snapshot
     ⟨"test_script.py", [], .unhandled "boom"⟩ (fun _ => "step") "boom"
     rfl rfl).1⟩

/-- C8: taking `'quit'` at a pause sets the quitting flag, so the dispatch
raises `BdbQuit` right after the pause: the run aborts with no further
snapshot, and `run_script` (whose `except bdb.BdbQuit: pass`, like
`Bdb.run`'s own handler, swallows the signal) delivers nothing beyond the
pause snapshots and terminates without surfacing any error snapshot. -/
theorem quit_terminates_silently (s : BdbState) (f : Frame) (rest : List Event)
    (cmds : Nat → String) (n : Nat)
    (htr : s.traceOn = true)
    (hstop : stop_here s (frameDepth f) f.top.lineno = true)
    (hq : cmds n = "quit") :
    run s (.line f :: rest) cmds n
      = ⟨[.putSnap (update_ui f none), .getCmd "quit"], set_quit s, n + 1,
          .quitRaised⟩ ∧
    ∀ (tr : TargetRun) (cmds' : Nat → String),
      (run initBdb tr.events cmds' 0).status = .quitRaised →
      (runScript tr cmds').puts
          = snapshotsOf (run initBdb tr.events cmds' 0).actions ∧
      (runScript tr cmds').status = .terminated := by
  constructor
  · have hw : wait_for_command s (frameDepth f) "quit" = set_quit s := rfl
    simp [run, user_line, pause, htr, hstop, hq, hw, set_quit]
  · intro tr cmds' hq'
    constructor
    · simp [runScript, hq']
    · simp [runScript, hq']

/-- Witness for C8: quitting at the first line pause of a two-event run
emits only that pause's snapshot and terminates. -/
theorem quit_terminates_silently_witness :
    initBdb.traceOn = true ∧
    stop_here initBdb (frameDepth frameMod) frameMod.top.lineno = true ∧
    ((fun _ : Nat => "quit") 0 = "quit") ∧
    run initBdb [.line frameMod, .line frameG] (fun _ => "quit") 0
      = ⟨[.putSnap (update_ui frameMod none), .getCmd "quit"],
          set_quit initBdb, 1, .quitRaised⟩ ∧
    (runScript ⟨"/tmp/t.py", [.line frameMod, .line frameG], .normal⟩
        (fun _ => "quit")).puts = [update_ui frameMod none] := by
  have h := quit_terminates_silently initBdb frameMod [.line frameG]
    (fun _ => "quit") 0 rfl (by decide) rfl
  refine ⟨rfl, by decide, rfl, h.1, ?_⟩
  have h2 := (h.2 ⟨"/tmp/t.py", [.line frameMod, .line frameG], .normal⟩
    (fun _ => "quit") (by rw [show (⟨"/tmp/t.py", [.line frameMod, .line frameG],
      .normal⟩ : TargetRun).events = [.line frameMod, .line frameG] from rfl,
      h.1])).1
  rw [h2, show (⟨"/tmp/t.py", [.line frameMod, .line frameG],
      .normal⟩ : TargetRun).events = [.line frameMod, .line frameG] from rfl,
    h.1]
  rfl

/-- C9: invoked without a target-path argument the process prints the usage
text and exits 1; invoked with a path that does not exist it prints an error
line and exits 1; in both cases the exit code is non-zero, some message is
printed and the debugger is not started; otherwise it runs the debugger on
the given path. -/
theorem main_exit_contract (argv : List String) (pathExists : String → Bool) :
    (argv.length < 2 → main argv pathExists = .exited 1 usageLines) ∧
    (∀ prog p rest, argv = prog :: p :: rest → pathExists p = false →
        main argv pathExists = .exited 1 ["Error: " ++ p ++ " not found"]) ∧
    (∀ prog p rest, argv = prog :: p :: rest → pathExists p = true →
        main argv pathExists = .ran p) ∧
    (∀ code output, main argv pathExists = .exited code output →
        code ≠ 0 ∧ output ≠ []) := by
  refine ⟨?_, ?_, ?_, ?_⟩
  · intro hlen
    cases argv with
    | nil => rfl
    | cons a t =>
        cases t with
        | nil => rfl
        | cons b t' => exact absurd hlen (by simp)
  · intro prog p rest heq hfalse
    subst heq
    simp [main, hfalse]
  · intro prog p rest heq htrue
    subst heq
    simp [main, htrue]
  · intro code output h
    cases argv with
    | nil =>
        simp only [main] at h
        cases h
        exact ⟨one_ne_zero, by decide⟩
    | cons a t =>
        cases t with
        | nil =>
            simp only [main] at h
            cases h
            exact ⟨one_ne_zero, by decide⟩
        | cons b t' =>
            simp only [main] at h
            split at h
            · cases h
            · cases h
              exact ⟨one_ne_zero, by simp⟩

/-- Witness for C9 at concrete invocations. -/
theorem main_exit_contract_witness :
    main ["simple_debugger.py"] (fun _ => true) = .exited 1 usageLines ∧
    main ["simple_debugger.py", "t.py"] (fun _ => false)
      = .exited 1 ["Error: " ++ "t.py" ++ " not found"] ∧
    main ["simple_debugger.py", "t.py"] (fun _ => true) = .ran "t.py" :=
  ⟨(main_exit_contract ["simple_debugger.py"] (fun _ => true)).1 (by decide),
   (main_exit_contract ["simple_debugger.py", "t.py"] (fun _ => false)).2.1
     "simple_debugger.py" "t.py" [] rfl rfl,
   (main_exit_contract ["simple_debugger.py", "t.py"] (fun _ => true)).2.2.1
     "simple_debugger.py" "t.py" [] rfl rfl⟩

/-- C10: any value received on the command queue while paused is consumed as
exactly one item and handled without raising; a value outside the four
recognized commands falls through every branch of `_wait_for_command`, so
the stepping state (the previously active stop conditions) is unchanged and
execution resumes under them. -/
theorem unknown_command_keeps_directives (s : BdbState) (f : Frame)
    (cmd : String)
    (h : cmd ∉ (["step", "next", "continue", "quit"] : List String)) :
    wait_for_command s (frameDepth f) cmd = s ∧
    user_line s f cmd = ([.putSnap (update_ui f none), .getCmd cmd], s) := by
  simp only [List.mem_cons, List.not_mem_nil, or_false, not_or] at h
  obtain ⟨h1, h2, h3, h4⟩ := h
  constructor
  · simp [wait_for_command, h1, h2, h3, h4]
  · simp [user_line, pause, wait_for_command, h1, h2, h3, h4]

/-- Witness for C10 at a concrete unrecognized command. -/
theorem unknown_command_keeps_directives_witness :
    ("bogus" ∉ (["step", "next", "continue", "quit"] : List String)) ∧
    wait_for_command initBdb (frameDepth frameMod) "bogus" = initBdb :=
  ⟨by decide,
   (unknown_command_keeps_directives initBdb frameMod "bogus" (by decide)).1⟩

end SimpleDebugger
